import Mathlib

/-!
Shallow embedding of the code-modification agent's decision/execution core
(`src/agent`: `SecurityValidator`, the file tools, the `ToolExecutor`
dispatch and the `AgentOrchestrator.execute_task` loop), translated from the
Python sources in the repository's design document. File contents are
modelled as `List Char` (byte sizes as character counts), the filesystem as
an association list from resolved path segments to contents, and Python
exceptions as an explicit error type threaded through `Except`. Path
resolution is modelled lexically (`..` segments collapse against the base;
symbolic links are outside the embedding, so `resolvePath` is the canonical
resolution). Tools whose implementation is not part of the repository's
sources (the interaction, search and test tools) are modelled from the
spec, and say so in their doc comments.
-/

deriving instance DecidableEq for Except

namespace CodeAgent

/-! ### Python string primitives on `List Char` -/

/-- Pattern `pat` matches at the head of `s` (Python slice comparison). -/
def isPre : List Char → List Char → Bool
  | [], _ => true
  | _ :: _, [] => false
  | p :: ps, c :: cs => p == c && isPre ps cs

/-- Python `pat in s`: `pat` occurs somewhere in `s` as a contiguous run. -/
def occursIn (pat : List Char) : List Char → Bool
  | [] => isPre pat []
  | c :: rest => isPre pat (c :: rest) || occursIn pat rest

/-- Auxiliary for `pyCount`: non-overlapping left-to-right count of the
non-empty pattern `p :: ps`. After a match the scan resumes past the
matched run, expressed structurally by skipping `k` further characters. -/
def countSkip (p : Char) (ps : List Char) : Nat → List Char → Nat
  | _, [] => 0
  | k + 1, _ :: rest => countSkip p ps k rest
  | 0, c :: rest =>
    if isPre (p :: ps) (c :: rest) then 1 + countSkip p ps ps.length rest
    else countSkip p ps 0 rest

/-- Non-overlapping count of the non-empty pattern `p :: ps` in a string
(`str.count` resumes the scan at the end of each match). -/
def countNE (p : Char) (ps : List Char) (s : List Char) : Nat :=
  countSkip p ps 0 s

/-- Python `s.count(pat)`: non-overlapping occurrences; for the empty
pattern Python returns `len(s) + 1`. -/
def pyCount (pat s : List Char) : Nat :=
  match pat with
  | [] => s.length + 1
  | p :: ps => countNE p ps s

/-- Auxiliary for `pyReplaceFirst`: replace the leftmost occurrence of the
non-empty pattern `p :: ps` by `new`. -/
def replFirstNE (p : Char) (ps new : List Char) : List Char → List Char
  | [] => []
  | c :: rest =>
    if isPre (p :: ps) (c :: rest) then new ++ rest.drop ps.length
    else c :: replFirstNE p ps new rest

/-- Python `s.replace(pat, new, 1)`: replace the first occurrence only;
for the empty pattern Python prepends `new`. -/
def pyReplaceFirst (pat new s : List Char) : List Char :=
  match pat with
  | [] => new ++ s
  | p :: ps => replFirstNE p ps new s

/-- Number of positions of `s` at which `pat` matches (occurrences counted
with overlap, unlike `pyCount`). -/
def posOccs (pat : List Char) : List Char → Nat
  | [] => if isPre pat [] then 1 else 0
  | c :: rest => (if isPre pat (c :: rest) then 1 else 0) + posOccs pat rest

/-- Python `str.split()` (no separator): split on runs of whitespace,
ignoring leading and trailing whitespace. -/
def splitWsAux (acc : List Char) : List Char → List (List Char)
  | [] => if acc.isEmpty then [] else [acc.reverse]
  | c :: rest =>
    if c.isWhitespace then
      if acc.isEmpty then splitWsAux [] rest else acc.reverse :: splitWsAux [] rest
    else splitWsAux (c :: acc) rest

/-! ### Paths

`pathlib` paths are modelled as their segment lists. `resolveFrom base segs`
walks the raw segments of a POSIX path over an already-canonical base:
empty and `.` segments vanish, `..` pops (at the root it stays at the root,
as `Path.resolve` does), everything else descends. -/

def resolveFrom (base : List String) : List String → List String
  | [] => base
  | s :: rest =>
    if s = "" ∨ s = "." then resolveFrom base rest
    else if s = ".." then resolveFrom base.dropLast rest
    else resolveFrom (base ++ [s]) rest

/-- Split on a separator character, keeping empty pieces
(`"a//b".split("/") = ["a", "", "b"]`, `"".split("/") = [""]`). -/
def splitSepAux (sep : Char) (acc : List Char) : List Char → List String
  | [] => [String.mk acc.reverse]
  | c :: rest =>
    if c = sep then String.mk acc.reverse :: splitSepAux sep [] rest
    else splitSepAux sep (c :: acc) rest

/-- Raw segments of a path string, as splitting on `/` produces them. -/
def splitSegs (p : String) : List String := splitSepAux '/' [] p.data

/-- Python `Path(p).is_absolute()` on POSIX: a leading slash. -/
def isAbsPath (p : String) : Bool :=
  match p.data with
  | [] => false
  | c :: _ => c = '/'

/-- `SecurityValidator`'s resolution: `Path(p).resolve()` for an absolute
path, `(workspace / p).resolve()` otherwise, with the workspace already
canonical. -/
def resolvePath (ws : List String) (p : String) : List String :=
  if isAbsPath p then resolveFrom [] (splitSegs p) else resolveFrom ws (splitSegs p)

/-- `BaseTool._resolve_path`: an absolute path is returned as `Path(p)`
without `resolve()` (so its `..` segments survive, `.` and empty segments
do not); a relative path is `(workspace / p).resolve()`. -/
def toolResolve (ws : List String) (p : String) : List String :=
  if isAbsPath p then (splitSegs p).filter (fun s => !(s == "" || s == "."))
  else resolveFrom ws (splitSegs p)

/-- `q.relative_to(base)` succeeds: `base` is a leading run of `q`
(equality included). -/
def relToOk : List String → List String → Bool
  | [], _ => true
  | _ :: _, [] => false
  | a :: as, b :: bs => a == b && relToOk as bs

/-! ### Filesystem

The workspace filesystem: an association list from resolved absolute path
segments to file contents. Only regular files are entries; a directory
exists exactly when some file lies strictly below it. -/

abbrev FS := List (List String × List Char)

def fsLookup (fs : FS) (k : List String) : Option (List Char) :=
  match fs with
  | [] => none
  | (k', v) :: rest => if k' == k then some v else fsLookup rest k

def fsRemove (fs : FS) (k : List String) : FS :=
  fs.filter (fun e => !(e.1 == k))

/-- Write (create or overwrite) the file at `k`. -/
def fsSet (fs : FS) (k : List String) (v : List Char) : FS :=
  (k, v) :: fsRemove fs k

/-- `k` denotes an existing directory: some file lies strictly below it. -/
def fsIsDir (fs : FS) (k : List String) : Bool :=
  fs.any (fun e => relToOk k e.1 && !(e.1 == k))

/-- The path with its final name extended by `suf`
(`Path.with_suffix(path.suffix + suf)`, which appends `suf` to the name). -/
def withNameSuffix : List String → String → List String
  | [], suf => [suf]
  | [x], suf => [x ++ suf]
  | x :: y :: xs, suf => x :: withNameSuffix (y :: xs) suf

/-! ### Errors

One error kind per Python exception raise site reached by the embedded
code; `isSecurityError` marks the kinds raised as `SecurityError` by
`SecurityValidator`. -/

inductive AgentErr where
  | emptyPath
  | pathOutsideWorkspace
  | blockedPath
  | pathNotAllowed
  | emptyCommand
  | commandNotAllowed
  | dangerousPattern
  | indexError
  | keyError
  | unknownTool
  | fileNotFound
  | notAFile
  | isADirectory
  | fileTooLarge
  | stringNotFound
  | ambiguousMatch
  | fileAlreadyExists
  | confirmRequired
  | noInteractiveChannel
deriving DecidableEq, Repr

def AgentErr.isSecurityError : AgentErr → Bool
  | .emptyPath | .pathOutsideWorkspace | .blockedPath | .pathNotAllowed
  | .emptyCommand | .commandNotAllowed | .dangerousPattern => true
  | _ => false

/-! ### SecurityValidator -/

def ALLOWED_PATHS : List String := ["src", "tests"]

def BLOCKED_PATHS : List String :=
  [".env", ".git", "node_modules", "__pycache__", ".venv", "venv"]

def ALLOWED_COMMANDS : List String :=
  ["pytest", "python", "pip", "black", "ruff", "mypy"]

/-- Declared on `SecurityValidator` but never consulted by it. -/
def MAX_FILE_SIZE : Nat := 1024 * 1024

/-- Declared on `SecurityValidator` but never consulted by it. -/
def MAX_CREATE_SIZE : Nat := 500 * 1024

def DANGEROUS_PATTERNS : List String :=
  ["rm -rf", "sudo", "chmod", ">", "|", "&&", ";", "\x60", "$("]

/-- Python `str(target.relative_to(workspace))`: `.` when they are equal. -/
def relPathStr (ws target : List String) : String :=
  match target.drop ws.length with
  | [] => "."
  | s :: rest => String.intercalate "/" (s :: rest)

/-- The `BLOCKED_PATHS` scan of `validate_file_path`: a blocked entry occurs
in the relative path string, or the string starts with it. -/
def blockedHit (ws target : List String) : Bool :=
  BLOCKED_PATHS.any (fun b =>
    occursIn b.data (relPathStr ws target).data || isPre b.data (relPathStr ws target).data)

/-- `SecurityValidator.validate_file_path`. `none` stands for a missing
`path` parameter (`params.get("path")` returning `None`). -/
def validate_file_path (p : Option String) (ws : List String) : Except AgentErr Unit :=
  match p with
  | none => .error .emptyPath
  | some path =>
    if path = "" then .error .emptyPath
    else if relToOk ws (resolvePath ws path) = false then .error .pathOutsideWorkspace
    else if blockedHit ws (resolvePath ws path) then .error .blockedPath
    else if ALLOWED_PATHS.any
        (fun a => relToOk (resolveFrom ws (splitSegs a)) (resolvePath ws path)) = false
        ∧ resolvePath ws path ≠ ws then .error .pathNotAllowed
    else .ok ()

/-- `SecurityValidator.validate_command`. An all-whitespace command makes
`command.split()[0]` raise `IndexError` (not a `SecurityError`). -/
def validate_command (cmd : Option String) : Except AgentErr Unit :=
  match cmd with
  | none => .error .emptyCommand
  | some command =>
    if command = "" then .error .emptyCommand
    else
      match splitWsAux [] command.data with
      | [] => .error .indexError
      | tok :: _ =>
        if ALLOWED_COMMANDS.any (fun a => a.data == tok) = false then
          .error .commandNotAllowed
        else if DANGEROUS_PATTERNS.any (fun pat => occursIn pat.data command.data) then
          .error .dangerousPattern
        else .ok ()

/-- The parameters an `Action` may carry, one optional field per parameter
name the embedded tools read. -/
structure Params where
  path : Option String := none
  content : Option String := none
  old_string : Option String := none
  new_string : Option String := none
  confirm : Option Bool := none
  command : Option String := none
  success : Option Bool := none
  pattern : Option String := none
deriving DecidableEq, Repr

structure Action where
  tool : String
  params : Params
deriving DecidableEq, Repr

/-- `SecurityValidator.validate_action`: dispatch on the tool name; tools
with no branch (the interaction tools among them) pass unvalidated. -/
def validate_action (tool : String) (p : Params) (ws : List String) : Except AgentErr Unit :=
  if tool = "read_file" ∨ tool = "edit_file" ∨ tool = "create_file" ∨ tool = "delete_file" then
    validate_file_path p.path ws
  else if tool = "list_files" ∨ tool = "search_code" then
    validate_file_path (some (p.path.getD ".")) ws
  else if tool = "run_command" then
    validate_command p.command
  else if tool = "run_tests" then
    match p.path with
    | some pa => validate_file_path (some pa) ws
    | none => .ok ()
  else .ok ()

/-! ### Tool results -/

inductive ToolResult where
  | fileContent (content : List Char)
  | editDone (backup : List String)
  | createDone (path : List String) (size : Nat)
  | deleteDone (backup : List String)
  | fileList (files : List (List String))
  | searchHits (files : List (List String))
  | testSummary
  | commandOutput
  | finishSignal (success : Bool)
  | errorReport
deriving DecidableEq, Repr

/-! ### File tools (`src/agent/tools/file_tools.py`) -/

/-- `ReadFileTool.execute`: missing `path` raises `KeyError`; a missing
file `FileNotFoundError`; a directory fails `is_file()`; a file over
1MB is refused before its contents are read. -/
def readFileExec (fs : FS) (ws : List String) (p : Params) :
    Except AgentErr (FS × ToolResult) :=
  match p.path with
  | none => .error .keyError
  | some path =>
    let fp := toolResolve ws path
    match fsLookup fs fp with
    | some c =>
      if c.length > 1024 * 1024 then .error .fileTooLarge
      else .ok (fs, .fileContent c)
    | none => if fsIsDir fs fp then .error .notAFile else .error .fileNotFound

/-- `EditFileTool.execute`: requires `old_string` present exactly once
(`str.count`, non-overlapping); writes the old contents to
`path + ".backup"`, then the replaced contents to `path`. -/
def editFileExec (fs : FS) (ws : List String) (p : Params) :
    Except AgentErr (FS × ToolResult) :=
  match p.path, p.old_string, p.new_string with
  | some path, some oldS, some newS =>
    let fp := toolResolve ws path
    (match fsLookup fs fp with
    | none => if fsIsDir fs fp then .error .isADirectory else .error .fileNotFound
    | some content =>
      if occursIn oldS.data content = false then .error .stringNotFound
      else if pyCount oldS.data content > 1 then .error .ambiguousMatch
      else
        let newContent := pyReplaceFirst oldS.data newS.data content
        let backup := withNameSuffix fp ".backup"
        .ok (fsSet (fsSet fs backup content) fp newContent, .editDone backup))
  | _, _, _ => .error .keyError

/-- `CreateFileTool.execute`: fails when the target already exists (file or
directory); parent directories are created implicitly. No size check. -/
def createFileExec (fs : FS) (ws : List String) (p : Params) :
    Except AgentErr (FS × ToolResult) :=
  match p.path, p.content with
  | some path, some content =>
    let fp := toolResolve ws path
    if (fsLookup fs fp).isSome || fsIsDir fs fp then .error .fileAlreadyExists
    else .ok (fsSet fs fp content.data, .createDone fp content.data.length)
  | _, _ => .error .keyError

/-- `DeleteFileTool.execute`: refuses without `confirm=true`; renames the
target (a file, or a whole directory) to `path + ".deleted"`. -/
def deleteFileExec (fs : FS) (ws : List String) (p : Params) :
    Except AgentErr (FS × ToolResult) :=
  match p.path with
  | none => .error .keyError
  | some path =>
    if (p.confirm.getD false) = false then .error .confirmRequired
    else
      let fp := toolResolve ws path
      let backup := withNameSuffix fp ".deleted"
      match fsLookup fs fp with
      | some c => .ok (fsSet (fsRemove fs fp) backup c, .deleteDone backup)
      | none =>
        if fsIsDir fs fp then
          .ok (fs.map (fun e =>
            if relToOk fp e.1 then (backup ++ e.1.drop fp.length, e.2) else e),
            .deleteDone backup)
        else .error .fileNotFound

/-! ### Tools whose implementation is not among the repository's sources -/

/-- Modelled from the spec: `list | path, pattern?, recursive? | lazy
sequence of matching paths | not-found` (`ListFilesTool` is registered but
its source is not in the repository). Listing succeeds for the workspace
root (which always exists) and any existing file or directory. -/
def listFilesExec (fs : FS) (ws : List String) (p : Params) :
    Except AgentErr (FS × ToolResult) :=
  let fp := toolResolve ws (p.path.getD ".")
  if fp == ws || (fsLookup fs fp).isSome || fsIsDir fs fp then
    .ok (fs, .fileList ((fs.filter (fun e => relToOk fp e.1)).map (fun e => e.1)))
  else .error .fileNotFound

/-- Modelled from the spec: `search | pattern, path, regex? | matches with
file+line | invalid-pattern` (`SearchCodeTool`'s source is not in the
repository). Modelled as a literal substring search over the files below
the given path; a literal pattern is never invalid. -/
def searchCodeExec (fs : FS) (ws : List String) (p : Params) :
    Except AgentErr (FS × ToolResult) :=
  let fp := toolResolve ws (p.path.getD ".")
  let pat := (p.pattern.getD "").data
  .ok (fs, .searchHits
    ((fs.filter (fun e => relToOk fp e.1 && occursIn pat e.2)).map (fun e => e.1)))

/-- Modelled from the spec: `run_tests | scope, path/filter, timeout |
structured pass/fail summary | timeout, runner-error` (`RunTestsTool`'s
source is not in the repository). Processes and wall-clock time are outside
the embedding, so the run returns its structured summary. -/
def runTestsExec (fs : FS) (_ws : List String) (_p : Params) :
    Except AgentErr (FS × ToolResult) :=
  .ok (fs, .testSummary)

/-- Modelled from the spec: `run_command | command, timeout |
stdout/stderr/exit code | disallowed (caught upstream by Validator),
timeout` (`RunCommandTool`'s source is not in the repository). Processes
and wall-clock time are outside the embedding, so the run returns its
output payload. -/
def runCommandExec (fs : FS) (_ws : List String) (_p : Params) :
    Except AgentErr (FS × ToolResult) :=
  .ok (fs, .commandOutput)

/-- Modelled from the spec: `ask_user` `requires an interactive channel;
fails if none attached` (`AskUserTool`'s source is not in the repository).
No channel is attached in this embedding, so it fails deterministically. -/
def askUserExec (_fs : FS) (_ws : List String) (_p : Params) :
    Except AgentErr (FS × ToolResult) :=
  .error .noInteractiveChannel

/-- Modelled from the spec: `finish | success, message, summary | —
(terminal signal) | none`: returns its parameters as the terminal payload
(the orchestrator reads `result.get("success", True)`), never failing. -/
def finishExec (fs : FS) (_ws : List String) (p : Params) :
    Except AgentErr (FS × ToolResult) :=
  .ok (fs, .finishSignal (p.success.getD true))

/-- Modelled from the spec: `report_error | kind, message | — (terminal
signal) | none`: returns its report payload, never failing. -/
def reportErrorExec (fs : FS) (_ws : List String) (_p : Params) :
    Except AgentErr (FS × ToolResult) :=
  .ok (fs, .errorReport)

/-- `ToolExecutor.execute`: the fixed registry of `ToolExecutor.__init__`,
an unknown tool name raising `ValueError`. -/
def executeTool (fs : FS) (ws : List String) (tool : String) (p : Params) :
    Except AgentErr (FS × ToolResult) :=
  if tool = "read_file" then readFileExec fs ws p
  else if tool = "edit_file" then editFileExec fs ws p
  else if tool = "create_file" then createFileExec fs ws p
  else if tool = "delete_file" then deleteFileExec fs ws p
  else if tool = "list_files" then listFilesExec fs ws p
  else if tool = "search_code" then searchCodeExec fs ws p
  else if tool = "run_tests" then runTestsExec fs ws p
  else if tool = "run_command" then runCommandExec fs ws p
  else if tool = "ask_user" then askUserExec fs ws p
  else if tool = "finish" then finishExec fs ws p
  else if tool = "report_error" then reportErrorExec fs ws p
  else .error .unknownTool

/-! ### The orchestrator (`AgentOrchestrator.execute_task`) -/

inductive FailReason where
  | maxIterationsReached
  | tooManyConsecutiveFailures
  | llmProtocolError
deriving DecidableEq, Repr

inductive Event where
  | iterationStart (n : Nat)
  | reasoningNote (text : String)
  | actionStart (tool : String)
  | actionSuccess (tool : String)
  | actionFailed (tool : String) (e : AgentErr)
  | taskCompleted (success : Bool)
  | taskFailed (r : FailReason)
deriving DecidableEq, Repr

structure AgentResponse where
  reasoning : Option String := none
  actions : List Action := []

/-- How one batch of proposed actions left the loop. -/
inductive BatchOut where
  | continueLoop
  | finishedTask (success : Bool)
  | abortedRun (r : FailReason)
deriving DecidableEq, Repr

structure BatchState where
  events : List Event
  fs : FS
  failures : Nat
  outcome : BatchOut
deriving DecidableEq, Repr

def finishSuccessOf : ToolResult → Bool
  | .finishSignal b => b
  | _ => true

/-- The inner action loop of `execute_task`: validate, then execute; a
failure increments the consecutive-failure counter and aborts the run when
it reaches `maxFailures`; a success resets it; a successful `finish` stops
the batch, skipping the remaining actions. -/
def runActions (ws : List String) (maxFailures : Nat) :
    FS → Nat → List Action → BatchState
  | fs, failures, [] => ⟨[], fs, failures, .continueLoop⟩
  | fs, failures, a :: rest =>
    match validate_action a.tool a.params ws with
    | .error e =>
      if failures + 1 ≥ maxFailures then
        ⟨[.actionStart a.tool, .actionFailed a.tool e], fs, failures + 1,
          .abortedRun .tooManyConsecutiveFailures⟩
      else
        let s := runActions ws maxFailures fs (failures + 1) rest
        ⟨.actionStart a.tool :: .actionFailed a.tool e :: s.events, s.fs, s.failures, s.outcome⟩
    | .ok _ =>
      match executeTool fs ws a.tool a.params with
      | .error e =>
        if failures + 1 ≥ maxFailures then
          ⟨[.actionStart a.tool, .actionFailed a.tool e], fs, failures + 1,
            .abortedRun .tooManyConsecutiveFailures⟩
        else
          let s := runActions ws maxFailures fs (failures + 1) rest
          ⟨.actionStart a.tool :: .actionFailed a.tool e :: s.events, s.fs, s.failures, s.outcome⟩
      | .ok (fs1, res) =>
        if a.tool = "finish" then
          ⟨[.actionStart a.tool, .actionSuccess a.tool], fs1, 0,
            .finishedTask (finishSuccessOf res)⟩
        else
          let s := runActions ws maxFailures fs1 0 rest
          ⟨.actionStart a.tool :: .actionSuccess a.tool :: s.events, s.fs, s.failures, s.outcome⟩

/-- The `reasoning` event: emitted when the response carries a non-empty
reasoning text (Python truthiness). -/
def reasonEvents : Option String → List Event
  | some r => if r = "" then [] else [.reasoningNote r]
  | none => []

structure RunOut where
  events : List Event
  fs : FS
  result : Option FailReason
deriving DecidableEq, Repr

/-- The iteration loop of `execute_task` over its remaining budget. The
decision service is a function of the iteration index (the conversation
history a fixed service sees is determined by the index); `.error` stands
for a response `get_next_actions` fails to parse, which the outer handler
turns into `task_failed`. Exhausting the budget raises and yields
`task_failed` as well; `result = none` means the task completed. -/
def runLoop (ws : List String) (maxFailures : Nat)
    (decision : Nat → Except String AgentResponse) :
    Nat → Nat → FS → Nat → RunOut
  | 0, _, fs, _ => ⟨[.taskFailed .maxIterationsReached], fs, some .maxIterationsReached⟩
  | fuel + 1, iter, fs, failures =>
    match decision iter with
    | .error _ =>
      ⟨[.iterationStart (iter + 1), .taskFailed .llmProtocolError], fs,
        some .llmProtocolError⟩
    | .ok resp =>
      let s := runActions ws maxFailures fs failures resp.actions
      match s.outcome with
      | .finishedTask ok =>
        ⟨.iterationStart (iter + 1) :: reasonEvents resp.reasoning ++ s.events
          ++ [.taskCompleted ok], s.fs, none⟩
      | .abortedRun r =>
        ⟨.iterationStart (iter + 1) :: reasonEvents resp.reasoning ++ s.events
          ++ [.taskFailed r], s.fs, some r⟩
      | .continueLoop =>
        let next := runLoop ws maxFailures decision fuel (iter + 1) s.fs s.failures
        ⟨.iterationStart (iter + 1) :: reasonEvents resp.reasoning ++ s.events
          ++ next.events, next.fs, next.result⟩

structure OrchConfig where
  maxIterations : Nat := 20
  maxFailures : Nat := 3

/-- `AgentOrchestrator.execute_task` on a workspace filesystem. -/
def execute_task (ws : List String) (cfg : OrchConfig)
    (decision : Nat → Except String AgentResponse) (fs : FS) : RunOut :=
  runLoop ws cfg.maxFailures decision cfg.maxIterations 0 fs 0

def isIterStart : Event → Bool
  | .iterationStart _ => true
  | _ => false

def isActionSuccessEv : Event → Bool
  | .actionSuccess _ => true
  | _ => false

def isCompletedEv : Event → Bool
  | .taskCompleted _ => true
  | _ => false

/-- An action the validator approves and every filesystem state executes
successfully, and that is neither `finish` nor `report_error`. -/
def ActionTotallyOk (ws : List String) (a : Action) : Prop :=
  a.tool ≠ "finish" ∧ a.tool ≠ "report_error" ∧
  validate_action a.tool a.params ws = .ok () ∧
  ∀ fs : FS, ∃ fs' res, executeTool fs ws a.tool a.params = .ok (fs', res)

/-! ### Concrete runs used by the closed theorems -/

def wsW : List String := ["workspace"]

/-- The spec's `create a.txt / finish` scenario, exactly as written. -/
def decCreateFinish : Nat → Except String AgentResponse := fun n =>
  if n = 0 then .ok { actions := [
    ⟨"create_file", { path := some "a.txt", content := some "hi" }⟩,
    ⟨"finish", { success := some true }⟩] }
  else .ok {}

/-- The scenario with a further action after `finish` in the same batch. -/
def decCreateFinishMore : Nat → Except String AgentResponse := fun n =>
  if n = 0 then .ok { actions := [
    ⟨"create_file", { path := some "a.txt", content := some "hi" }⟩,
    ⟨"finish", { success := some true }⟩,
    ⟨"create_file", { path := some "src/b.txt", content := some "x" }⟩] }
  else .ok {}

/-- A `report_error` followed by a `create_file` in one batch, then `finish`. -/
def decReportThenCreate : Nat → Except String AgentResponse := fun n =>
  if n = 0 then .ok { actions := [
    ⟨"report_error", {}⟩,
    ⟨"create_file", { path := some "src/x.txt", content := some "y" }⟩] }
  else .ok { actions := [⟨"finish", { success := some true }⟩] }

/-- A decision service that forever proposes one disallowed command. -/
def decDisallowedForever : Nat → Except String AgentResponse := fun _ =>
  .ok { actions := [⟨"run_command", { command := some "rm -rf /" }⟩] }

/-- A decision service that forever proposes one allow-listed command. -/
def decPytestForever : Nat → Except String AgentResponse := fun _ =>
  .ok { actions := [⟨"run_command", { command := some "pytest" }⟩] }

/-- A decision service that forever returns an empty action list. -/
def decEmptyForever : Nat → Except String AgentResponse := fun _ => .ok {}

/-- Empty action list on the first iteration, a malformed response after. -/
def decEmptyThenBad : Nat → Except String AgentResponse := fun n =>
  if n = 0 then .ok {} else .error "unparseable"

/-- Contents one character over `MAX_CREATE_SIZE` (500KB). -/
def bigContent : String := String.mk (List.replicate 512001 'a')

/-- Contents one character over the read tool's 1MB limit. -/
def hugeContents : List Char := List.replicate 1048577 'a'

end CodeAgent

namespace CodeAgent

/-! ### Basic lemmas about the primitives -/

theorem relToOk_refl (l : List String) : relToOk l l = true := by
  induction l with
  | nil => rfl
  | cons a as ih => simp [relToOk, ih]

theorem resolvePath_empty (ws : List String) : resolvePath ws "" = ws := by
  have h1 : isAbsPath "" = false := by decide
  have h2 : splitSegs "" = [""] := by decide
  simp [resolvePath, h1, h2, resolveFrom]

theorem occursIn_nil_pat (c : List Char) : occursIn [] c = true := by
  cases c <;> simp [occursIn, isPre]

theorem countSkip_pos_occursIn (p : Char) (ps : List Char) (c : List Char) :
    ∀ k, 0 < countSkip p ps k c → occursIn (p :: ps) c = true := by
  induction c with
  | nil => intro k h; simp [countSkip] at h
  | cons x r ih =>
    intro k h
    match k with
    | k' + 1 =>
      rw [countSkip] at h
      simp [occursIn, ih k' h]
    | 0 =>
      by_cases hp : isPre (p :: ps) (x :: r) = true
      · simp [occursIn, hp]
      · rw [countSkip, if_neg hp] at h
        simp [occursIn, hp, ih 0 h]

theorem countNE_pos_occursIn (p : Char) (ps : List Char) (c : List Char)
    (h : 0 < countNE p ps c) : occursIn (p :: ps) c = true :=
  countSkip_pos_occursIn p ps c 0 h

theorem pyCount_pos_occursIn (pat c : List Char) (h : 0 < pyCount pat c) :
    occursIn pat c = true := by
  match pat with
  | [] => exact occursIn_nil_pat c
  | p :: ps => exact countNE_pos_occursIn p ps c h

theorem fsLookup_fsSet (fs : FS) (k : List String) (v : List Char) :
    fsLookup (fsSet fs k v) k = some v := by
  simp [fsSet, fsLookup]

theorem resolveFrom_src (ws : List String) :
    resolveFrom ws (splitSegs "src") = ws ++ ["src"] := by
  rw [show splitSegs "src" = ["src"] from by decide]
  simp [resolveFrom]

theorem resolveFrom_tests (ws : List String) :
    resolveFrom ws (splitSegs "tests") = ws ++ ["tests"] := by
  rw [show splitSegs "tests" = ["tests"] from by decide]
  simp [resolveFrom]

/-! ### C1: paths resolving outside the workspace are rejected during
validation, before any tool runs -/

/-- C1: for every path whose canonical resolution lies outside the task's
workspace root (`..` traversal included; resolution is modelled lexically,
which is the canonical resolution in a symlink-free filesystem),
`validate_file_path` — and hence `validate_action` for both `read_file` and
`edit_file` — raises `SecurityError` with the path-escape reason, and the
orchestrator's action step records the failure without invoking the tool
executor: the filesystem is returned untouched. -/
theorem path_escape_rejected_before_execution (ws : List String) (p : String) (fs : FS)
    (h : relToOk ws (resolvePath ws p) = false) :
    validate_file_path (some p) ws = .error .pathOutsideWorkspace ∧
    validate_action "read_file" { path := some p } ws = .error .pathOutsideWorkspace ∧
    validate_action "edit_file" { path := some p } ws = .error .pathOutsideWorkspace ∧
    AgentErr.pathOutsideWorkspace.isSecurityError = true ∧
    runActions ws 3 fs 0 [⟨"read_file", { path := some p }⟩] =
      ⟨[.actionStart "read_file", .actionFailed "read_file" .pathOutsideWorkspace],
        fs, 1, .continueLoop⟩ ∧
    runActions ws 3 fs 0 [⟨"edit_file", { path := some p }⟩] =
      ⟨[.actionStart "edit_file", .actionFailed "edit_file" .pathOutsideWorkspace],
        fs, 1, .continueLoop⟩ := by
  have hp : p ≠ "" := by
    intro he
    rw [he, resolvePath_empty, relToOk_refl] at h
    exact Bool.noConfusion h
  have hv : validate_file_path (some p) ws = .error .pathOutsideWorkspace := by
    simp [validate_file_path, hp, h]
  have hr : validate_action "read_file" { path := some p } ws =
      .error .pathOutsideWorkspace := by
    simp [validate_action, hv]
  have hed : validate_action "edit_file" { path := some p } ws =
      .error .pathOutsideWorkspace := by
    simp [validate_action, hv]
  refine ⟨hv, hr, hed, rfl, ?_, ?_⟩
  · simp [runActions, hr]
  · simp [runActions, hed]

/-- C1 witness: the spec's own `../../etc/passwd` scenario against a
workspace at `/workspace`. -/
theorem path_escape_rejected_witness :
    relToOk ["workspace"] (resolvePath ["workspace"] "../../etc/passwd") = false ∧
    validate_file_path (some "../../etc/passwd") ["workspace"] =
      .error .pathOutsideWorkspace ∧
    runActions ["workspace"] 3 [] 0
      [⟨"read_file", { path := some "../../etc/passwd" }⟩] =
      ⟨[.actionStart "read_file", .actionFailed "read_file" .pathOutsideWorkspace],
        [], 1, .continueLoop⟩ :=
  ⟨by decide,
   (path_escape_rejected_before_execution ["workspace"] "../../etc/passwd" []
     (by decide)).1,
   (path_escape_rejected_before_execution ["workspace"] "../../etc/passwd" []
     (by decide)).2.2.2.2.1⟩

/-! ### C3: command validation -/

/-- C3: a command whose leading whitespace-separated token is not in the
fixed allow-list fails validation with `SecurityError`; an allow-listed
command containing a deny-listed metacharacter or construct fails with the
dangerous-pattern `SecurityError`. -/
theorem command_validation (cmd : String) (t : List Char) (rest : List (List Char))
    (hsplit : splitWsAux [] cmd.data = t :: rest) :
    (ALLOWED_COMMANDS.any (fun a => a.data == t) = false →
      validate_command (some cmd) = .error .commandNotAllowed ∧
      AgentErr.commandNotAllowed.isSecurityError = true) ∧
    (ALLOWED_COMMANDS.any (fun a => a.data == t) = true →
      DANGEROUS_PATTERNS.any (fun pat => occursIn pat.data cmd.data) = true →
      validate_command (some cmd) = .error .dangerousPattern ∧
      AgentErr.dangerousPattern.isSecurityError = true) := by
  have hne : cmd ≠ "" := by
    intro he
    rw [he] at hsplit
    rw [show splitWsAux [] "".data = [] from rfl] at hsplit
    exact List.noConfusion hsplit
  constructor
  · intro h1
    refine ⟨?_, rfl⟩
    simp [validate_command, hne, hsplit, h1]
  · intro h1 h2
    refine ⟨?_, rfl⟩
    simp [validate_command, hne, hsplit, h1, h2]

/-- C3 witness: `rm -rf /` has a disallowed leading token; `pytest tests ;
rm` is allow-listed but contains the `;` chaining metacharacter. -/
theorem command_validation_witness :
    validate_command (some "rm -rf /") = .error .commandNotAllowed ∧
    validate_command (some "pytest tests ; rm") = .error .dangerousPattern :=
  ⟨((command_validation "rm -rf /" "rm".data ["-rf".data, "/".data]
      (by decide)).1 (by decide)).1,
   (((command_validation "pytest tests ; rm" "pytest".data
      ["tests".data, ";".data, "rm".data] (by decide)).2 (by decide)) (by decide)).1⟩

/-! ### C4: the strict directory allow-list inside the workspace -/

/-- C4: a path that resolves inside the workspace but is neither the
workspace root itself nor under `src` or `tests` is rejected with a
`SecurityError` even though it escapes nothing — the validator enforces a
directory allow-list on top of the deny-list. -/
theorem workspace_internal_paths_need_allowlist (ws : List String) (p : String)
    (h1 : relToOk ws (resolvePath ws p) = true)
    (h2 : resolvePath ws p ≠ ws)
    (h3 : relToOk (ws ++ ["src"]) (resolvePath ws p) = false)
    (h4 : relToOk (ws ++ ["tests"]) (resolvePath ws p) = false) :
    ∃ e, validate_file_path (some p) ws = .error e ∧ e.isSecurityError = true := by
  have hp : p ≠ "" := by
    intro he
    rw [he, resolvePath_empty] at h2
    exact h2 rfl
  by_cases hb : blockedHit ws (resolvePath ws p) = true
  · exact ⟨.blockedPath, by simp [validate_file_path, hp, h1, hb], rfl⟩
  · refine ⟨.pathNotAllowed, ?_, rfl⟩
    have hany : ALLOWED_PATHS.any
        (fun a => relToOk (resolveFrom ws (splitSegs a)) (resolvePath ws p)) = false := by
      simp [ALLOWED_PATHS, resolveFrom_src, resolveFrom_tests, h3, h4]
    simp [validate_file_path, hp, h1, hb, hany, h2]

/-- C4 witness: `a.txt` at the workspace root is inside the workspace,
matches no blocked segment, yet is rejected. -/
theorem workspace_internal_paths_witness :
    relToOk ["workspace"] (resolvePath ["workspace"] "a.txt") = true ∧
    resolvePath ["workspace"] "a.txt" ≠ ["workspace"] ∧
    blockedHit ["workspace"] (resolvePath ["workspace"] "a.txt") = false ∧
    ∃ e, validate_file_path (some "a.txt") ["workspace"] = .error e ∧
      e.isSecurityError = true :=
  ⟨by decide, by decide, by decide,
   workspace_internal_paths_need_allowlist ["workspace"] "a.txt"
     (by decide) (by decide) (by decide) (by decide)⟩

/-! ### C8: ambiguous edits fail and change nothing -/

/-- C8: when `old_string` occurs more than once (Python's non-overlapping
`str.count`), the edit tool fails with the ambiguity error instead of
picking an occurrence, and the orchestrator's action step leaves the
filesystem — in particular the target file — unchanged. -/
theorem edit_ambiguity_rejected (fs : FS) (ws : List String) (path oldS newS : String)
    (c : List Char)
    (hfile : fsLookup fs (toolResolve ws path) = some c)
    (hcount : pyCount oldS.data c > 1) :
    executeTool fs ws "edit_file"
      { path := some path, old_string := some oldS, new_string := some newS } =
      .error .ambiguousMatch ∧
    (runActions ws 3 fs 0
      [⟨"edit_file",
        { path := some path, old_string := some oldS, new_string := some newS }⟩]).fs =
      fs := by
  have hocc : occursIn oldS.data c = true :=
    pyCount_pos_occursIn oldS.data c (by omega)
  have hex : executeTool fs ws "edit_file"
      { path := some path, old_string := some oldS, new_string := some newS } =
      .error .ambiguousMatch := by
    simp [executeTool, editFileExec, hfile, hocc, hcount]
  refine ⟨hex, ?_⟩
  rcases hval : validate_action "edit_file"
      { path := some path, old_string := some oldS, new_string := some newS } ws with e | u
  · simp [runActions, hval]
  · simp [runActions, hval, hex]

/-- C8 witness: editing a file whose contents are `aa` with
`old_string = "a"` (two occurrences). -/
theorem edit_ambiguity_witness :
    pyCount "a".data "aa".data > 1 ∧
    executeTool [(["ws", "src", "f.py"], "aa".data)] ["ws"] "edit_file"
      { path := some "src/f.py", old_string := some "a", new_string := some "b" } =
      .error .ambiguousMatch :=
  ⟨by decide,
   (edit_ambiguity_rejected [(["ws", "src", "f.py"], "aa".data)] ["ws"]
     "src/f.py" "a" "b" "aa".data (by decide) (by decide)).1⟩

/-! ### C9: the edit round trip -/

theorem isPre_append (pat t : List Char) : isPre pat (pat ++ t) = true := by
  induction pat with
  | nil => rfl
  | cons p ps ih => simp [isPre, ih]

theorem isPre_decomp (pat : List Char) : ∀ s : List Char, isPre pat s = true →
    s = pat ++ s.drop pat.length := by
  induction pat with
  | nil => intro s _; simp
  | cons p ps ih =>
    intro s h
    match s with
    | [] => exact absurd h (by simp [isPre])
    | c :: cs =>
      simp only [isPre, Bool.and_eq_true, beq_iff_eq] at h
      obtain ⟨rfl, h2⟩ := h
      simpa [List.length_cons] using congrArg (List.cons p) (ih cs h2)

/-- Where `replace(pat, new, 1)` acts: the string splits around the
leftmost occurrence of `pat`, which gets replaced by `new`. -/
theorem pyReplaceFirst_decomp (pat new : List Char) : ∀ c : List Char,
    occursIn pat c = true →
    ∃ pre suf, c = pre ++ pat ++ suf ∧ pyReplaceFirst pat new c = pre ++ new ++ suf := by
  match pat with
  | [] =>
    intro c _
    exact ⟨[], c, by simp, by simp [pyReplaceFirst]⟩
  | p :: ps =>
    intro c
    induction c with
    | nil => intro h; exact absurd h (by simp [occursIn, isPre])
    | cons x r ih =>
      intro h
      by_cases hp : isPre (p :: ps) (x :: r) = true
      · refine ⟨[], r.drop ps.length, ?_, ?_⟩
        · simpa [List.length_cons] using isPre_decomp (p :: ps) (x :: r) hp
        · simp [pyReplaceFirst, replFirstNE, hp]
      · have hr : occursIn (p :: ps) r = true := by
          rw [occursIn, Bool.or_eq_true] at h
          rcases h with h | h
          · exact absurd h hp
          · exact h
        obtain ⟨pre, suf, hc, hrep⟩ := ih hr
        refine ⟨x :: pre, suf, by simp [hc], ?_⟩
        simp [pyReplaceFirst, replFirstNE, hp] at hrep ⊢
        exact hrep

theorem posOccs_nil_pat (c : List Char) : posOccs [] c = c.length + 1 := by
  induction c with
  | nil => rfl
  | cons x r ih => simp [posOccs, isPre, ih]; omega

theorem posOccs_pos_of_isPre (pat c : List Char) (h : isPre pat c = true) :
    0 < posOccs pat c := by
  match c with
  | [] => rw [posOccs, if_pos h]; omega
  | x :: r => rw [posOccs, if_pos h]; omega

theorem posOccs_append_pos (pat suf : List Char) : ∀ pre : List Char,
    0 < posOccs pat (pre ++ pat ++ suf) := by
  intro pre
  induction pre with
  | nil =>
    simpa using posOccs_pos_of_isPre pat (pat ++ suf) (isPre_append pat suf)
  | cons x pre' ih =>
    have h1 : (x :: pre') ++ pat ++ suf = x :: (pre' ++ pat ++ suf) := by simp
    rw [h1, posOccs]
    exact Nat.lt_of_lt_of_le ih (Nat.le_add_left _ _)


theorem pyReplaceFirst_cons_of_not_isPre (pat rep : List Char) (x : Char) (t : List Char)
    (hne : pat ≠ []) (h : isPre pat (x :: t) = false) :
    pyReplaceFirst pat rep (x :: t) = x :: pyReplaceFirst pat rep t := by
  match pat with
  | [] => exact absurd rfl hne
  | p :: ps => simp [pyReplaceFirst, replFirstNE, h]

/-- When `pat` matches at exactly one position, `replace(pat, rep, 1)`
replaces exactly the occurrence that splits the string as
`pre ++ pat ++ suf`. -/
theorem pyReplaceFirst_unique (pat rep suf : List Char) : ∀ pre : List Char,
    posOccs pat (pre ++ pat ++ suf) = 1 →
    pyReplaceFirst pat rep (pre ++ pat ++ suf) = pre ++ rep ++ suf := by
  intro pre
  induction pre with
  | nil =>
    intro h
    simp only [List.nil_append] at h ⊢
    match pat, h with
    | [], h =>
      rw [posOccs_nil_pat] at h
      simp only [List.nil_append, List.length_append] at h
      have hsuf : suf = [] := List.length_eq_zero.mp (by omega)
      subst hsuf
      simp [pyReplaceFirst]
    | p :: ps, _ =>
      have hp : isPre (p :: ps) ((p :: ps) ++ suf) = true := isPre_append _ _
      rw [show ((p :: ps) ++ suf) = p :: (ps ++ suf) from by simp] at hp ⊢
      rw [pyReplaceFirst, replFirstNE, if_pos hp, List.drop_left]
  | cons x pre' ih =>
    intro h
    have h1 : (x :: pre') ++ pat ++ suf = x :: (pre' ++ pat ++ suf) := by
      rw [List.cons_append, List.cons_append]
    rw [h1] at h
    have hpos : 0 < posOccs pat (pre' ++ pat ++ suf) := posOccs_append_pos pat suf pre'
    rw [posOccs] at h
    have hnp : isPre pat (x :: (pre' ++ pat ++ suf)) = false := by
      by_cases hb : isPre pat (x :: (pre' ++ pat ++ suf)) = true
      · rw [if_pos hb] at h; omega
      · exact Bool.eq_false_iff.mpr hb
    rw [if_neg (show ¬(isPre pat (x :: (pre' ++ pat ++ suf)) = true) from by
      rw [hnp]; exact Bool.false_ne_true), Nat.zero_add] at h
    have hne : pat ≠ [] := by
      intro he
      rw [he] at hnp
      simp [isPre] at hnp
    rw [h1, pyReplaceFirst_cons_of_not_isPre pat rep x (pre' ++ pat ++ suf) hne hnp, ih h]
    rw [List.cons_append, List.cons_append]

/-- What a successful `EditFileTool.execute` did: the file existed with
some contents `c`, `old_string` occurred in `c`, and the new filesystem
holds the backup and the replaced contents. -/
theorem editFileExec_ok (fs : FS) (ws : List String) (path oldS newS : String)
    (fs' : FS) (r : ToolResult)
    (h : editFileExec fs ws
      { path := some path, old_string := some oldS, new_string := some newS } =
      .ok (fs', r)) :
    ∃ c, fsLookup fs (toolResolve ws path) = some c ∧
      occursIn oldS.data c = true ∧
      fs' = fsSet (fsSet fs (withNameSuffix (toolResolve ws path) ".backup") c)
        (toolResolve ws path) (pyReplaceFirst oldS.data newS.data c) := by
  rw [editFileExec] at h
  rcases hL : fsLookup fs (toolResolve ws path) with _ | c
  · simp only [hL] at h
    split_ifs at h
  · simp only [hL] at h
    by_cases h1 : occursIn oldS.data c = false
    · rw [if_pos h1] at h
      exact Except.noConfusion h
    · rw [if_neg h1] at h
      by_cases h2 : pyCount oldS.data c > 1
      · rw [if_pos h2] at h
        exact Except.noConfusion h
      · rw [if_neg h2] at h
        refine ⟨c, rfl, ?_, ?_⟩
        · cases hb : occursIn oldS.data c with
          | false => exact absurd hb h1
          | true => rfl
        · injection h with h3
          exact (congrArg Prod.fst h3).symm

/-- C9 counterexample: editing `ab` with `edit(path, "b", "aa")` and then
`edit(path, "aa", "b")` succeeds both times — the non-overlapping
`str.count` sees only one occurrence of `aa` in `aaa` — yet yields `ba`,
not the original `ab`. -/
theorem edit_roundtrip_cex :
    executeTool [(["ws", "src", "f.py"], "ab".data)] ["ws"] "edit_file"
      { path := some "src/f.py", old_string := some "b", new_string := some "aa" } =
      .ok ([(["ws", "src", "f.py"], "aaa".data),
            (["ws", "src", "f.py.backup"], "ab".data)],
           .editDone ["ws", "src", "f.py.backup"]) ∧
    executeTool [(["ws", "src", "f.py"], "aaa".data),
                 (["ws", "src", "f.py.backup"], "ab".data)] ["ws"] "edit_file"
      { path := some "src/f.py", old_string := some "aa", new_string := some "b" } =
      .ok ([(["ws", "src", "f.py"], "ba".data),
            (["ws", "src", "f.py.backup"], "aaa".data)],
           .editDone ["ws", "src", "f.py.backup"]) ∧
    fsLookup [(["ws", "src", "f.py"], "ba".data),
              (["ws", "src", "f.py.backup"], "aaa".data)] ["ws", "src", "f.py"] =
      some "ba".data ∧
    fsLookup [(["ws", "src", "f.py"], "ab".data)] ["ws", "src", "f.py"] =
      some "ab".data ∧
    "ba".data ≠ "ab".data := by
  refine ⟨by decide, by decide, by decide, by decide, by decide⟩

/-- C9 amended: when `edit(path, old, new)` and then `edit(path, new, old)`
both succeed **and** `new` matches at exactly one position of the
intermediate contents (so the occurrence the second edit removes is the one
the first edit introduced — `str.count` being non-overlapping, this can
otherwise fail), the file's contents are restored byte-identically. -/
theorem edit_roundtrip_restores (fs : FS) (ws : List String) (path oldS newS : String)
    (fs1 fs2 : FS) (r1 r2 : ToolResult) (c1 : List Char)
    (h1 : executeTool fs ws "edit_file"
      { path := some path, old_string := some oldS, new_string := some newS } =
      .ok (fs1, r1))
    (hc1 : fsLookup fs1 (toolResolve ws path) = some c1)
    (huniq : posOccs newS.data c1 = 1)
    (h2 : executeTool fs1 ws "edit_file"
      { path := some path, old_string := some newS, new_string := some oldS } =
      .ok (fs2, r2)) :
    fsLookup fs2 (toolResolve ws path) = fsLookup fs (toolResolve ws path) := by
  rw [show executeTool fs ws "edit_file"
      { path := some path, old_string := some oldS, new_string := some newS } =
      editFileExec fs ws
        { path := some path, old_string := some oldS, new_string := some newS } from by
    simp [executeTool]] at h1
  rw [show executeTool fs1 ws "edit_file"
      { path := some path, old_string := some newS, new_string := some oldS } =
      editFileExec fs1 ws
        { path := some path, old_string := some newS, new_string := some oldS } from by
    simp [executeTool]] at h2
  obtain ⟨c0, hL0, hocc0, hfs1⟩ := editFileExec_ok fs ws path oldS newS fs1 r1 h1
  obtain ⟨c1', hL1, _, hfs2⟩ := editFileExec_ok fs1 ws path newS oldS fs2 r2 h2
  have hc1' : c1' = c1 := by
    rw [hL1] at hc1
    exact Option.some.inj hc1
  rw [hc1'] at hfs2
  have hc1val : c1 = pyReplaceFirst oldS.data newS.data c0 := by
    rw [hfs1, fsLookup_fsSet] at hc1
    exact (Option.some.inj hc1).symm
  obtain ⟨pre, suf, hdec, hrep⟩ := pyReplaceFirst_decomp oldS.data newS.data c0 hocc0
  have hc1form : c1 = pre ++ newS.data ++ suf := by rw [hc1val, hrep]
  have hback : pyReplaceFirst newS.data oldS.data c1 = pre ++ oldS.data ++ suf := by
    rw [hc1form]
    exact pyReplaceFirst_unique newS.data oldS.data suf pre (hc1form ▸ huniq)
  rw [hfs2, fsLookup_fsSet, hback, ← hdec, hL0]

/-- C9 witness for the amended theorem: contents `xy`, `edit(path, "x",
"z")` then `edit(path, "z", "x")`; the intermediate contents `zy` hold
exactly one position matching `z`, and the round trip restores `xy`. -/
theorem edit_roundtrip_restores_witness :
    fsLookup [(["ws", "src", "g.py"], "xy".data),
              (["ws", "src", "g.py.backup"], "zy".data)]
      (toolResolve ["ws"] "src/g.py") =
    fsLookup [(["ws", "src", "g.py"], "xy".data)] (toolResolve ["ws"] "src/g.py") :=
  edit_roundtrip_restores [(["ws", "src", "g.py"], "xy".data)] ["ws"] "src/g.py"
    "x" "z"
    [(["ws", "src", "g.py"], "zy".data), (["ws", "src", "g.py.backup"], "xy".data)]
    [(["ws", "src", "g.py"], "xy".data), (["ws", "src", "g.py.backup"], "zy".data)]
    (.editDone ["ws", "src", "g.py.backup"]) (.editDone ["ws", "src", "g.py.backup"])
    "zy".data (by decide) (by decide) (by decide) (by decide)

/-! ### Loop lemmas for the iteration budget -/

theorem reasonEvents_iterStart_count (r : Option String) :
    (reasonEvents r).countP (fun e => isIterStart e) = 0 := by
  match r with
  | none => rfl
  | some s =>
    by_cases hs : s = ""
    · simp [reasonEvents, hs]
    · simp [reasonEvents, hs, isIterStart]

/-- The inner action loop never emits an `iteration_start` event. -/
theorem runActions_no_iterStart (ws : List String) (mf : Nat) :
    ∀ (acts : List Action) (fs : FS) (f : Nat),
      ∀ e ∈ (runActions ws mf fs f acts).events, isIterStart e = false := by
  intro acts
  induction acts with
  | nil => intro fs f e he; exact absurd he (List.not_mem_nil e)
  | cons a rest ih =>
    intro fs f
    rw [runActions]
    rcases hv : validate_action a.tool a.params ws with er | u
    · dsimp only
      by_cases hc : f + 1 ≥ mf
      · rw [if_pos hc]
        intro e he
        simp only [List.mem_cons, List.not_mem_nil, or_false] at he
        rcases he with rfl | rfl <;> rfl
      · rw [if_neg hc]
        intro e he
        simp only [List.mem_cons] at he
        rcases he with rfl | rfl | hmem
        · rfl
        · rfl
        · exact ih fs (f + 1) e hmem
    · dsimp only
      rcases hex : executeTool fs ws a.tool a.params with er | p
      · dsimp only
        by_cases hc : f + 1 ≥ mf
        · rw [if_pos hc]
          intro e he
          simp only [List.mem_cons, List.not_mem_nil, or_false] at he
          rcases he with rfl | rfl <;> rfl
        · rw [if_neg hc]
          intro e he
          simp only [List.mem_cons] at he
          rcases he with rfl | rfl | hmem
          · rfl
          · rfl
          · exact ih fs (f + 1) e hmem
      · rcases p with ⟨fs1, res⟩
        dsimp only
        by_cases hf : a.tool = "finish"
        · rw [if_pos hf]
          intro e he
          simp only [List.mem_cons, List.not_mem_nil, or_false] at he
          rcases he with rfl | rfl <;> rfl
        · rw [if_neg hf]
          intro e he
          simp only [List.mem_cons] at he
          rcases he with rfl | rfl | hmem
          · rfl
          · rfl
          · exact ih fs1 0 e hmem

/-- The inner action loop's `iteration_start` count is zero. -/
theorem runActions_iterStart_count (ws : List String) (mf : Nat)
    (acts : List Action) (fs : FS) (f : Nat) :
    (runActions ws mf fs f acts).events.countP (fun e => isIterStart e) = 0 := by
  rw [List.countP_eq_zero]
  intro e he
  simp [runActions_no_iterStart ws mf acts fs f e he]

/-- A batch of totally-successful, non-`finish` actions always lets the
loop continue. -/
theorem runActions_ok_outcome (ws : List String) (mf : Nat) :
    ∀ acts : List Action, (∀ a ∈ acts, ActionTotallyOk ws a) →
      ∀ (fs : FS) (f : Nat), (runActions ws mf fs f acts).outcome = .continueLoop := by
  intro acts
  induction acts with
  | nil => intro _ fs f; rfl
  | cons a rest ih =>
    intro h fs f
    obtain ⟨hfin, _, hval, hex⟩ := h a (List.mem_cons_self a rest)
    obtain ⟨fs', res, hexec⟩ := hex fs
    rw [runActions]
    simp only [hval, hexec, if_neg hfin]
    exact ih (fun b hb => h b (List.mem_cons_of_mem a hb)) fs' 0

theorem countP_zero_of_none (l : List Event) (h : ∀ e ∈ l, isIterStart e = false) :
    l.countP (fun e => isIterStart e) = 0 :=
  List.countP_eq_zero.mpr (by intro a ha; simp [h a ha])

theorem countP_loopEvents (k : Nat) (r : Option String) (l1 l2 : List Event)
    (h1 : ∀ e ∈ l1, isIterStart e = false) :
    (Event.iterationStart k :: reasonEvents r ++ l1 ++ l2).countP
      (fun e => isIterStart e) = l2.countP (fun e => isIterStart e) + 1 := by
  have hz1 : (reasonEvents r).countP (fun e => isIterStart e) = 0 :=
    reasonEvents_iterStart_count r
  have hz2 : l1.countP (fun e => isIterStart e) = 0 := countP_zero_of_none l1 h1
  calc (Event.iterationStart k :: reasonEvents r ++ l1 ++ l2).countP
        (fun e => isIterStart e)
      = (reasonEvents r ++ l1 ++ l2).countP (fun e => isIterStart e) + 1 :=
        List.countP_cons_of_pos _ _ rfl
    _ = l2.countP (fun e => isIterStart e) + 1 := by
        simp only [List.countP_append, hz1, hz2]
        omega

/-- Under a decision service whose every response is well-formed and whose
every action executes successfully without being `finish` or
`report_error`, the loop spends its entire budget and fails with the
budget-exhaustion reason, emitting one `iteration_start` per unit of
fuel. -/
theorem runLoop_allOk (ws : List String) (mf : Nat)
    (decision : Nat → Except String AgentResponse)
    (h : ∀ i, ∃ resp, decision i = .ok resp ∧ ∀ a ∈ resp.actions, ActionTotallyOk ws a) :
    ∀ (fuel iter : Nat) (fs : FS) (f : Nat),
      (runLoop ws mf decision fuel iter fs f).result = some .maxIterationsReached ∧
      (runLoop ws mf decision fuel iter fs f).events.countP
        (fun e => isIterStart e) = fuel := by
  intro fuel
  induction fuel with
  | zero => intro iter fs f; exact ⟨rfl, rfl⟩
  | succ n ih =>
    intro iter fs f
    obtain ⟨resp, hd, hacts⟩ := h iter
    have hout := runActions_ok_outcome ws mf resp.actions hacts fs f
    rw [runLoop]
    simp only [hd, hout]
    have h1 := ih (iter + 1) (runActions ws mf fs f resp.actions).fs
      (runActions ws mf fs f resp.actions).failures
    refine ⟨h1.1, ?_⟩
    exact (countP_loopEvents (iter + 1) resp.reasoning _ _
      (runActions_no_iterStart ws mf resp.actions fs f)).trans (by rw [h1.2])

/-- Whatever the decision service does, the loop emits at most `fuel`
`iteration_start` events: no run exceeds the budget. -/
theorem runLoop_iter_le (ws : List String) (mf : Nat)
    (decision : Nat → Except String AgentResponse) :
    ∀ (fuel iter : Nat) (fs : FS) (f : Nat),
      (runLoop ws mf decision fuel iter fs f).events.countP
        (fun e => isIterStart e) ≤ fuel := by
  intro fuel
  induction fuel with
  | zero =>
    intro iter fs f
    have hz : ([Event.taskFailed .maxIterationsReached] : List Event).countP
        (fun e => isIterStart e) = 0 := rfl
    rw [runLoop]
    dsimp only
    omega
  | succ n ih =>
    intro iter fs f
    rw [runLoop]
    rcases hd : decision iter with msg | resp
    · dsimp only
      have h2 : ([Event.iterationStart (iter + 1),
          Event.taskFailed .llmProtocolError] : List Event).countP
          (fun e => isIterStart e) = 1 := rfl
      omega
    · dsimp only
      rcases hout : (runActions ws mf fs f resp.actions).outcome with _ | ok | r
      · dsimp only
        have h1 := ih (iter + 1) (runActions ws mf fs f resp.actions).fs
          (runActions ws mf fs f resp.actions).failures
        have heq := countP_loopEvents (iter + 1) resp.reasoning
          (runActions ws mf fs f resp.actions).events
          (runLoop ws mf decision n (iter + 1) (runActions ws mf fs f resp.actions).fs
            (runActions ws mf fs f resp.actions).failures).events
          (runActions_no_iterStart ws mf resp.actions fs f)
        omega
      · dsimp only
        have heq := countP_loopEvents (iter + 1) resp.reasoning
          (runActions ws mf fs f resp.actions).events [.taskCompleted ok]
          (runActions_no_iterStart ws mf resp.actions fs f)
        have hz : ([Event.taskCompleted ok] : List Event).countP
            (fun e => isIterStart e) = 0 := rfl
        omega
      · dsimp only
        have heq := countP_loopEvents (iter + 1) resp.reasoning
          (runActions ws mf fs f resp.actions).events [.taskFailed r]
          (runActions_no_iterStart ws mf resp.actions fs f)
        have hz : ([Event.taskFailed r] : List Event).countP
            (fun e => isIterStart e) = 0 := rfl
        omega

/-! ### C2: budget exhaustion -/

/-- C2 amended: when the decision service always answers with a well-formed
batch of actions that are neither `finish` nor `report_error` **and** all
validate and execute successfully (an always-failing action stream instead
trips the consecutive-failure abort first, see the counterexample), the
task fails with the budget-exhaustion reason after exactly
`max_iterations` iterations; and no run, under any decision service,
ever starts more than `max_iterations` iterations. -/
theorem budget_exhaustion (ws : List String) (cfg : OrchConfig)
    (decision : Nat → Except String AgentResponse) (fs : FS)
    (h : ∀ i, ∃ resp, decision i = .ok resp ∧ ∀ a ∈ resp.actions, ActionTotallyOk ws a) :
    (execute_task ws cfg decision fs).result = some .maxIterationsReached ∧
    (execute_task ws cfg decision fs).events.countP (fun e => isIterStart e) =
      cfg.maxIterations ∧
    ∀ (d2 : Nat → Except String AgentResponse) (fs2 : FS),
      (execute_task ws cfg d2 fs2).events.countP (fun e => isIterStart e) ≤
        cfg.maxIterations :=
  ⟨(runLoop_allOk ws cfg.maxFailures decision h cfg.maxIterations 0 fs 0).1,
   (runLoop_allOk ws cfg.maxFailures decision h cfg.maxIterations 0 fs 0).2,
   fun d2 fs2 => runLoop_iter_le ws cfg.maxFailures d2 cfg.maxIterations 0 fs2 0⟩

/-- C2 counterexample: a decision service that always proposes a
non-`finish`, non-`report_error` action (a disallowed `run_command`) whose
validation always fails: the task ends after 3 iterations with the
consecutive-failures reason, not after 20 with budget exhaustion. -/
theorem budget_exhaustion_cex :
    (∀ i : Nat, decDisallowedForever i =
      .ok { actions := [⟨"run_command", { command := some "rm -rf /" }⟩] }) ∧
    (∀ a ∈ [Action.mk "run_command" { command := some "rm -rf /" }],
      a.tool ≠ "finish" ∧ a.tool ≠ "report_error") ∧
    (execute_task wsW {} decDisallowedForever []).result =
      some .tooManyConsecutiveFailures ∧
    (execute_task wsW {} decDisallowedForever []).result ≠
      some .maxIterationsReached ∧
    (execute_task wsW {} decDisallowedForever []).events.countP
      (fun e => isIterStart e) = 3 :=
  ⟨fun _ => rfl, by decide, by decide, by decide, by decide⟩

/-- C2 witness: a decision service that forever runs `pytest` (allow-listed,
always succeeding) exhausts the default budget of 20 iterations. -/
theorem budget_exhaustion_witness :
    (execute_task wsW {} decPytestForever []).result = some .maxIterationsReached ∧
    (execute_task wsW {} decPytestForever []).events.countP
      (fun e => isIterStart e) = 20 := by
  have h := budget_exhaustion wsW {} decPytestForever []
    (fun i => ⟨{ actions := [⟨"run_command", { command := some "pytest" }⟩] }, rfl, by
      intro a ha
      simp only [List.mem_singleton] at ha
      subst ha
      exact ⟨by decide, by decide, by decide, fun fs => ⟨fs, .commandOutput, rfl⟩⟩⟩)
  exact ⟨h.1, h.2.1⟩

/-! ### C6: the empty action list -/

/-- C6 amended: an empty action list is not treated as a protocol
violation — the iteration records no action outcomes and the loop continues
into the next iteration with the same filesystem and failure counter
(indefinite looping is still impossible: the budget bounds the run). A
response the client fails to parse, by contrast, does fail the task
immediately. -/
theorem empty_actions_not_protocol_failure (ws : List String) (mf : Nat)
    (decision : Nat → Except String AgentResponse) (fuel iter : Nat) (fs : FS) (f : Nat)
    (hempty : decision iter = .ok { reasoning := none, actions := [] }) :
    (runLoop ws mf decision (fuel + 1) iter fs f =
      ⟨.iterationStart (iter + 1) ::
         (runLoop ws mf decision fuel (iter + 1) fs f).events,
       (runLoop ws mf decision fuel (iter + 1) fs f).fs,
       (runLoop ws mf decision fuel (iter + 1) fs f).result⟩) ∧
    ∀ (d2 : Nat → Except String AgentResponse) (msg : String) (fu2 i2 : Nat)
      (fs2 : FS) (f2 : Nat), d2 i2 = .error msg →
      runLoop ws mf d2 (fu2 + 1) i2 fs2 f2 =
        ⟨[.iterationStart (i2 + 1), .taskFailed .llmProtocolError], fs2,
          some .llmProtocolError⟩ := by
  constructor
  · rw [runLoop]
    simp [hempty, runActions, reasonEvents]
  · intro d2 msg fu2 i2 fs2 f2 hd
    rw [runLoop]
    simp [hd]

/-- C6 witness: empty batch at iteration 0 continues into iteration 1; a
malformed response fails the task at once. -/
theorem empty_actions_witness :
    (runLoop wsW 3 decEmptyThenBad 20 0 [] 0 =
      ⟨.iterationStart 1 :: (runLoop wsW 3 decEmptyThenBad 19 1 [] 0).events,
       (runLoop wsW 3 decEmptyThenBad 19 1 [] 0).fs,
       (runLoop wsW 3 decEmptyThenBad 19 1 [] 0).result⟩) ∧
    runLoop wsW 3 decEmptyThenBad 5 1 [] 0 =
      ⟨[.iterationStart 2, .taskFailed .llmProtocolError], [], some .llmProtocolError⟩ :=
  ⟨(empty_actions_not_protocol_failure wsW 3 decEmptyThenBad 19 0 [] 0 rfl).1,
   (empty_actions_not_protocol_failure wsW 3 decEmptyThenBad 19 0 [] 0 rfl).2
     decEmptyThenBad "unparseable" 4 1 [] 0 rfl⟩

/-- C6 counterexample: with a decision service that always returns an empty
action list, the orchestrator starts iteration 2 (and all 20) instead of
failing the task at the first empty response; it only fails when the
budget is exhausted. -/
theorem empty_actions_cex :
    (∀ i : Nat, decEmptyForever i = .ok { reasoning := none, actions := [] }) ∧
    Event.iterationStart 2 ∈ (execute_task wsW {} decEmptyForever []).events ∧
    (execute_task wsW {} decEmptyForever []).events.countP
      (fun e => isIterStart e) = 20 ∧
    (execute_task wsW {} decEmptyForever []).result = some .maxIterationsReached :=
  ⟨fun _ => rfl, by decide, by decide, by decide⟩

/-! ### C5: `report_error` is not handled by the orchestrator -/

/-- C5: contrary to the spec, the orchestrator has no `report_error`
branch (`execute_task` special-cases only `finish`). In a batch
`[report_error, create_file]` the `create_file` is still executed after
`report_error` succeeds, the loop proceeds to iteration 2, and the task
ends `Completed` — no `task_failed` transition happens. -/
theorem report_error_not_terminal :
    (execute_task wsW {} decReportThenCreate []).result = none ∧
    (execute_task wsW {} decReportThenCreate []).events =
      [.iterationStart 1,
       .actionStart "report_error", .actionSuccess "report_error",
       .actionStart "create_file", .actionSuccess "create_file",
       .iterationStart 2,
       .actionStart "finish", .actionSuccess "finish",
       .taskCompleted true] ∧
    fsLookup (execute_task wsW {} decReportThenCreate []).fs
      ["workspace", "src", "x.txt"] = some "y".data :=
  ⟨by decide, by decide, by decide⟩

/-! ### C7: the create-and-finish scenario -/

/-- C7 counterexample: running the spec's scenario exactly —
`create(a.txt, "hi")` then `finish(success=true)` — completes the task,
but `a.txt` does **not** exist afterwards: the create is rejected by the
validator's directory allow-list (the workspace root is not under
`src`/`tests`), so the filesystem stays empty. -/
theorem create_finish_scenario_cex :
    (execute_task wsW {} decCreateFinish []).result = none ∧
    fsLookup (execute_task wsW {} decCreateFinish []).fs
      (resolvePath wsW "a.txt") = none ∧
    fsLookup (execute_task wsW {} decCreateFinish []).fs
      (toolResolve wsW "a.txt") = none ∧
    (execute_task wsW {} decCreateFinish []).fs = [] :=
  ⟨by decide, by decide, by decide, by decide⟩

/-- C7 amended: in the scenario (with any further action after `finish` in
the same batch), the `create(a.txt, "hi")` fails validation with the
allow-list `SecurityError` and creates nothing, the task still ends
`Completed` with exactly one `action_success` (for `finish`) and exactly
one `task_completed`, and the action after `finish` is never executed. -/
theorem create_finish_scenario :
    execute_task wsW {} decCreateFinishMore [] =
      ⟨[.iterationStart 1,
        .actionStart "create_file", .actionFailed "create_file" .pathNotAllowed,
        .actionStart "finish", .actionSuccess "finish",
        .taskCompleted true], [], none⟩ ∧
    (execute_task wsW {} decCreateFinishMore []).events.countP
      (fun e => isActionSuccessEv e) = 1 ∧
    (execute_task wsW {} decCreateFinishMore []).events.countP
      (fun e => isCompletedEv e) = 1 ∧
    fsLookup (execute_task wsW {} decCreateFinishMore []).fs
      (resolvePath wsW "a.txt") = none ∧
    fsLookup (execute_task wsW {} decCreateFinishMore []).fs
      (resolvePath wsW "src/b.txt") = none :=
  ⟨by decide, by decide, by decide, by decide, by decide⟩

/-! ### C10: size limits -/

/-- C10 amended: the Security Validator performs no size checks at all —
validating a create is independent of the content and validating a read
sees only the path; the 1MB read limit is enforced by the read tool itself
during execution, raising a `ToolError` (`ValueError` in the source), not
a `SecurityError`. -/
theorem size_limits_not_in_validator (ws : List String) (pp cc : Option String)
    (fs : FS) (path : String) (c : List Char)
    (hfile : fsLookup fs (toolResolve ws path) = some c)
    (hsize : c.length > 1024 * 1024) :
    validate_action "create_file" { path := pp, content := cc } ws =
      validate_file_path pp ws ∧
    validate_action "read_file" { path := pp } ws = validate_file_path pp ws ∧
    executeTool fs ws "read_file" { path := some path } = .error .fileTooLarge ∧
    AgentErr.fileTooLarge.isSecurityError = false := by
  refine ⟨by simp [validate_action], by simp [validate_action], ?_, rfl⟩
  simp [executeTool, readFileExec, hfile, hsize]

/-- C10 witness: a file one character over 1MB passes validation untouched
by its size and is rejected only by the read tool at execution time. -/
theorem size_limits_witness :
    validate_action "create_file"
      { path := some "src/big.txt", content := some bigContent } ["workspace"] =
      validate_file_path (some "src/big.txt") ["workspace"] ∧
    executeTool [(["workspace", "src", "huge.txt"], hugeContents)]
      ["workspace"] "read_file" { path := some "src/huge.txt" } =
      .error .fileTooLarge ∧
    hugeContents.length > 1024 * 1024 := by
  have h := size_limits_not_in_validator ["workspace"] (some "src/big.txt")
    (some bigContent) [(["workspace", "src", "huge.txt"], hugeContents)]
    "src/huge.txt" hugeContents rfl
    (by rw [show hugeContents.length = 1048577 from by
      rw [hugeContents, List.length_replicate]]; decide)
  exact ⟨h.1, h.2.2.1, by rw [show hugeContents.length = 1048577 from by
    rw [hugeContents, List.length_replicate]]; decide⟩

/-- C10 counterexample: a create whose content exceeds `MAX_CREATE_SIZE`
(the validator's own declared limit) passes validation and executes
successfully — no size rejection happens anywhere on the create path. -/
theorem size_limit_create_cex :
    MAX_CREATE_SIZE = 500 * 1024 ∧
    bigContent.data.length > MAX_CREATE_SIZE ∧
    validate_action "create_file"
      { path := some "src/big.txt", content := some bigContent } ["workspace"] =
      .ok () ∧
    (∃ fs' r, executeTool [] ["workspace"] "create_file"
      { path := some "src/big.txt", content := some bigContent } = .ok (fs', r)) :=
  ⟨rfl,
   by rw [show bigContent.data = List.replicate 512001 'a' from rfl,
     List.length_replicate]; decide,
   rfl,
   ⟨_, _, rfl⟩⟩

end CodeAgent
